import Mathlib

/-!
# Verification of the `.vox` chunk decoder in `vox2bella.cpp`

This file gives a shallow embedding of the binary decode pass of
`src/vox2bella.cpp` (the `readChunk` function together with the driving loop
and file-header validation in `DL_main`) and proves properties of it.

Modelling conventions:
* A byte source is a `List Nat`; each element models one byte of the file
  (genuine files have all elements `< 256`, which is assumed via an explicit
  hypothesis where a claim needs it).
* `std::ifstream` is modelled by `VoxStream`: a data list, a cursor `pos`, and
  a `fail` flag.  After a failed read the C++ stream has `failbit` set,
  `tellg()` returns `-1`, every later read extracts nothing, and `peek()`
  returns `EOF`; the model reproduces exactly this.
* `file.read` into a zero-initialised `std::vector` that runs past the end of
  the data extracts the remaining bytes, leaves the rest of the vector zero
  and sets `failbit` (`VoxStream.readVec`).  A short read into a stack
  `ChunkHeader` struct leaves indeterminate values in the struct; using those
  values is undefined behaviour, modelled by the `Outcome.undef` result.
  Out-of-bounds accesses into a payload vector (`operator[]` past the size, or
  `reinterpret_cast` reads past the buffer, as the `MATL` loop performs) are
  likewise undefined behaviour and are modelled as `Outcome.undef` /
  `Option.none` results of the payload decoders.
* Recursion in `readChunk` is made total with an explicit fuel parameter;
  theorems quantify over sufficient fuel.  `Outcome.outOfFuel` never occurs
  for the fuel bounds computed below.
-/

set_option linter.unusedVariables false
set_option maxRecDepth 10000

/-- Little-endian 32-bit read at byte offset `off`, as performed by
`*reinterpret_cast<uint32_t*>(data + off)` on a little-endian machine.
The value is only meaningful when `off + 4` bytes are in bounds (the code is
undefined otherwise; callers in this development check bounds first). -/
def u32LE (l : List Nat) (off : Nat) : Nat :=
  match l.drop off with
  | b0 :: b1 :: b2 :: b3 :: _ => b0 + 256 * b1 + 65536 * b2 + 16777216 * b3
  | _ => 0

/-- Little-endian encoding of a 32-bit value into four bytes. -/
def encodeU32 (n : Nat) : List Nat :=
  [n % 256, n / 256 % 256, n / 65536 % 256, n / 16777216 % 256]

/-- `byteSlice l pos n` models reading `n` bytes at absolute offset `pos`. -/
def byteSlice (l : List Nat) (pos n : Nat) : List Nat :=
  (l.drop pos).take n

/-- One voxel record: `uint8_t x, y, z, colorIndex` (vox2bella.cpp:243-246). -/
structure Voxel where
  x : Nat
  y : Nat
  z : Nat
  colorIndex : Nat
deriving DecidableEq

/-- The state accumulated by the decode pass of `vox2bella.cpp`:
`voxels` are the voxel transforms created in the scene (position plus colour
index, in creation order), `voxelPalette` is the global
`std::vector<uint8_t> voxelPalette` of colour indices, `palette` is the
global `unsigned int palette[256]` array and `has_palette` the global flag
declared at vox2bella.cpp:44. -/
structure Model where
  voxels : List Voxel
  voxelPalette : List Nat
  palette : List Nat
  has_palette : Bool
deriving DecidableEq

/-- The compiled-in 256-entry default palette (vox2bella.cpp:150-167). -/
def defaultPalette : List Nat := [
  0x00000000, 0xffffffff, 0xffccffff, 0xff99ffff, 0xff66ffff, 0xff33ffff, 0xff00ffff, 0xffffccff, 0xffccccff, 0xff99ccff, 0xff66ccff, 0xff33ccff, 0xff00ccff, 0xffff99ff, 0xffcc99ff, 0xff9999ff,
  0xff6699ff, 0xff3399ff, 0xff0099ff, 0xffff66ff, 0xffcc66ff, 0xff9966ff, 0xff6666ff, 0xff3366ff, 0xff0066ff, 0xffff33ff, 0xffcc33ff, 0xff9933ff, 0xff6633ff, 0xff3333ff, 0xff0033ff, 0xffff00ff,
  0xffcc00ff, 0xff9900ff, 0xff6600ff, 0xff3300ff, 0xff0000ff, 0xffffffcc, 0xffccffcc, 0xff99ffcc, 0xff66ffcc, 0xff33ffcc, 0xff00ffcc, 0xffffcccc, 0xffcccccc, 0xff99cccc, 0xff66cccc, 0xff33cccc,
  0xff00cccc, 0xffff99cc, 0xffcc99cc, 0xff9999cc, 0xff6699cc, 0xff3399cc, 0xff0099cc, 0xffff66cc, 0xffcc66cc, 0xff9966cc, 0xff6666cc, 0xff3366cc, 0xff0066cc, 0xffff33cc, 0xffcc33cc, 0xff9933cc,
  0xff6633cc, 0xff3333cc, 0xff0033cc, 0xffff00cc, 0xffcc00cc, 0xff9900cc, 0xff6600cc, 0xff3300cc, 0xff0000cc, 0xffffff99, 0xffccff99, 0xff99ff99, 0xff66ff99, 0xff33ff99, 0xff00ff99, 0xffffcc99,
  0xffcccc99, 0xff99cc99, 0xff66cc99, 0xff33cc99, 0xff00cc99, 0xffff9999, 0xffcc9999, 0xff999999, 0xff669999, 0xff339999, 0xff009999, 0xffff6699, 0xffcc6699, 0xff996699, 0xff666699, 0xff336699,
  0xff006699, 0xffff3399, 0xffcc3399, 0xff993399, 0xff663399, 0xff333399, 0xff003399, 0xffff0099, 0xffcc0099, 0xff990099, 0xff660099, 0xff330099, 0xff000099, 0xffffff66, 0xffccff66, 0xff99ff66,
  0xff66ff66, 0xff33ff66, 0xff00ff66, 0xffffcc66, 0xffcccc66, 0xff99cc66, 0xff66cc66, 0xff33cc66, 0xff00cc66, 0xffff9966, 0xffcc9966, 0xff999966, 0xff669966, 0xff339966, 0xff009966, 0xffff6666,
  0xffcc6666, 0xff996666, 0xff666666, 0xff336666, 0xff006666, 0xffff3366, 0xffcc3366, 0xff993366, 0xff663366, 0xff333366, 0xff003366, 0xffff0066, 0xffcc0066, 0xff990066, 0xff660066, 0xff330066,
  0xff000066, 0xffffff33, 0xffccff33, 0xff99ff33, 0xff66ff33, 0xff33ff33, 0xff00ff33, 0xffffcc33, 0xffcccc33, 0xff99cc33, 0xff66cc33, 0xff33cc33, 0xff00cc33, 0xffff9933, 0xffcc9933, 0xff999933,
  0xff669933, 0xff339933, 0xff009933, 0xffff6633, 0xffcc6633, 0xff996633, 0xff666633, 0xff336633, 0xff006633, 0xffff3333, 0xffcc3333, 0xff993333, 0xff663333, 0xff333333, 0xff003333, 0xffff0033,
  0xffcc0033, 0xff990033, 0xff660033, 0xff330033, 0xff000033, 0xffffff00, 0xffccff00, 0xff99ff00, 0xff66ff00, 0xff33ff00, 0xff00ff00, 0xffffcc00, 0xffcccc00, 0xff99cc00, 0xff66cc00, 0xff33cc00,
  0xff00cc00, 0xffff9900, 0xffcc9900, 0xff999900, 0xff669900, 0xff339900, 0xff009900, 0xffff6600, 0xffcc6600, 0xff996600, 0xff666600, 0xff336600, 0xff006600, 0xffff3300, 0xffcc3300, 0xff993300,
  0xff663300, 0xff333300, 0xff003300, 0xffff0000, 0xffcc0000, 0xff990000, 0xff660000, 0xff330000, 0xff0000ee, 0xff0000dd, 0xff0000bb, 0xff0000aa, 0xff000088, 0xff000077, 0xff000055, 0xff000044,
  0xff000022, 0xff000011, 0xff00ee00, 0xff00dd00, 0xff00bb00, 0xff00aa00, 0xff008800, 0xff007700, 0xff005500, 0xff004400, 0xff002200, 0xff001100, 0xffee0000, 0xffdd0000, 0xffbb0000, 0xffaa0000,
  0xff880000, 0xff770000, 0xff550000, 0xff440000, 0xff220000, 0xff110000, 0xffeeeeee, 0xffdddddd, 0xffbbbbbb, 0xffaaaaaa, 0xff888888, 0xff777777, 0xff555555, 0xff444444, 0xff222222, 0xff111111]

/-- Decoder state at the start of `DL_main`'s chunk loop: empty voxel data,
the compiled-in default palette, `has_palette = false`. -/
def initModel : Model :=
  { voxels := [], voxelPalette := [], palette := defaultPalette, has_palette := false }

/-- Model of the C++ `std::ifstream`: the whole file contents, the get
position, and the fail state (`failbit`). -/
structure VoxStream where
  data : List Nat
  pos : Nat
  fail : Bool
deriving DecidableEq

/-- `tellg()`: `-1` once the stream has failed, otherwise the position. -/
def VoxStream.tellg (s : VoxStream) : Int :=
  if s.fail then -1 else (s.pos : Int)

/-- `peek() == EOF`: true when the stream has failed or no byte remains. -/
def VoxStream.peekEOF (s : VoxStream) : Bool :=
  s.fail || decide (s.data.length ≤ s.pos)

/-- `file.read` of `n` bytes into a zero-initialised `std::vector` of size
`n` (vox2bella.cpp:203-204).  A failed stream extracts nothing (the vector
stays zero); a short read extracts the remaining bytes, zero-pads and sets
`failbit`. -/
def VoxStream.readVec (s : VoxStream) (n : Nat) : List Nat × VoxStream :=
  if s.fail then (List.replicate n 0, s)
  else if s.pos + n ≤ s.data.length then
    (byteSlice s.data s.pos n, { s with pos := s.pos + n })
  else
    (byteSlice s.data s.pos (s.data.length - s.pos) ++
       List.replicate (n - (s.data.length - s.pos)) 0,
     { s with pos := s.data.length, fail := true })

/-- ASCII bytes of the chunk tag `"SIZE"`. -/
def tagSIZE : List Nat := [83, 73, 90, 69]

/-- ASCII bytes of the chunk tag `"XYZI"`. -/
def tagXYZI : List Nat := [88, 89, 90, 73]

/-- ASCII bytes of the chunk tag `"MATL"`. -/
def tagMATL : List Nat := [77, 65, 84, 76]

/-- ASCII bytes of the file magic `"VOX "`. -/
def voxMagic : List Nat := [86, 79, 88, 32]

/-- All chunk tags that `readChunk` recognises by name
(vox2bella.cpp:216-406).  Note `"RGBA"` is NOT among them: the `RGBA`
branch is commented out in the source (vox2bella.cpp:268-296). -/
def handledTags : List (List Nat) :=
  [tagSIZE, tagXYZI,
   [114, 67, 65, 77],   -- rCAM
   [80, 65, 67, 75],    -- PACK
   [114, 79, 66, 74],   -- rOBJ
   [110, 84, 82, 78],   -- nTRN
   [110, 71, 82, 80],   -- nGRP
   [110, 83, 72, 80],   -- nSHP
   tagMATL,
   [77, 65, 84, 84],    -- MATT
   [76, 65, 89, 82],    -- LAYR
   [73, 77, 65, 80],    -- IMAP
   [78, 79, 84, 69]]    -- NOTE

/-- The `XYZI` branch (vox2bella.cpp:225-266): read `numVoxels` from the
first four content bytes, then `numVoxels` records of four bytes each via
unchecked `content[4 + i*4 + k]` indexing.  An index past the vector size is
undefined behaviour, modelled by `none`. -/
def decodeXYZIVoxels (content : List Nat) : Option (List Voxel) :=
  if content.length < 4 then none
  else
    let numVoxels := u32LE content 0
    if content.length < 4 + 4 * numVoxels then none
    else some ((List.range numVoxels).map fun i =>
      { x := content.getD (4 + i * 4) 0
        y := content.getD (4 + i * 4 + 1) 0
        z := content.getD (4 + i * 4 + 2) 0
        colorIndex := content.getD (4 + i * 4 + 3) 0 })

/-- `std::map::operator[]` assignment: replace the value of an existing key,
otherwise add the binding. -/
def mapInsert (l : List (List Nat × List Nat)) (k v : List Nat) :
    List (List Nat × List Nat) :=
  match l with
  | [] => [(k, v)]
  | (k', v') :: t => if k' = k then (k, v) :: t else (k', v') :: mapInsert t k v

/-- `std::map::at` / lookup. -/
def mapFind (l : List (List Nat × List Nat)) (k : List Nat) : Option (List Nat) :=
  match l with
  | [] => none
  | (k', v') :: t => if k' = k then some v' else mapFind t k

/-- Reinterpret a `uint32_t` bit pattern as the C++ `int32_t` it denotes. -/
def toI32 (n : Nat) : Int :=
  if n < 2147483648 then (n : Int) else (n : Int) - 4294967296

/-- A decoded `MATL` record (vox2bella.cpp:69-74): the id and the property
dictionary.  Values are always stored as the literal decoded strings
(byte lists); the numeric-coercion code in the source is commented out
(vox2bella.cpp:375-385). -/
structure Material where
  materialId : Int
  properties : List (List Nat × List Nat)
deriving DecidableEq

/-- The `MATL` key/value loop (vox2bella.cpp:352-386): while
`offset < content.size()`, read a `uint32` key length, `keyLength` key bytes,
a `uint32` value length and `valueLength` value bytes, storing
`properties[key] = value`.  The C++ performs no bounds checks; any read past
the payload buffer is undefined behaviour, modelled by `none`. -/
def matlLoop : Nat → List Nat → Nat → List (List Nat × List Nat) →
    Option (List (List Nat × List Nat))
  | 0, _, _, _ => none
  | fuel + 1, content, off, acc =>
    if off < content.length then
      if off + 4 ≤ content.length then
        let keyLength := u32LE content off
        if off + 4 + keyLength ≤ content.length then
          let key := byteSlice content (off + 4) keyLength
          let o2 := off + 4 + keyLength
          if o2 + 4 ≤ content.length then
            let valueLength := u32LE content o2
            if o2 + 4 + valueLength ≤ content.length then
              let value := byteSlice content (o2 + 4) valueLength
              matlLoop fuel content (o2 + 4 + valueLength) (mapInsert acc key value)
            else none
          else none
        else none
      else none
    else some acc

/-- The `MATL` branch (vox2bella.cpp:323-389): `int32` material id, four
skipped bytes, then the key/value loop.  Payloads shorter than the id plus
the skipped word make the initial `reinterpret_cast` reads out of bounds
(undefined behaviour, modelled by `none`).  Each loop iteration consumes at
least 8 bytes, so `content.length + 1` fuel always suffices. -/
def decodeMATL (content : List Nat) : Option Material :=
  if content.length < 8 then none
  else (matlLoop (content.length + 1) content 8 []).map fun props =>
    { materialId := toI32 (u32LE content 0), properties := props }

/-- The tag dispatch of `readChunk` (vox2bella.cpp:216-406) reduced to its
effect on the decoder state.  `SIZE` only prints the three dimensions (they
are read out of bounds when the payload is shorter than 12 bytes); `XYZI`
appends voxels and colour indices; `MATL` decodes a local `Material` that is
then discarded; every other tag (including `RGBA`, whose branch is commented
out) is a no-op.  `none` models an out-of-bounds payload read (undefined
behaviour). -/
def chunkBranch (tag content : List Nat) (m : Model) : Option Model :=
  if tag = tagSIZE then
    if content.length < 12 then none else some m
  else if tag = tagXYZI then
    (decodeXYZIVoxels content).map fun vs =>
      { m with voxels := m.voxels ++ vs
               voxelPalette := m.voxelPalette ++ vs.map (·.colorIndex) }
  else if tag = tagMATL then
    (decodeMATL content).map fun _ => m
  else some m

/-- Result of running a decode step: success, undefined behaviour of the C++
(out-of-bounds read / use of indeterminate values), or fuel exhaustion of the
embedding (never hit for the fuel bounds proved below). -/
inductive Outcome (α : Type) where
  | ok : α → Outcome α
  | undef : Outcome α
  | outOfFuel : Outcome α
deriving DecidableEq

mutual

/-- Shallow embedding of `readChunk` (vox2bella.cpp:181-419): read a 12-byte
`ChunkHeader` (a short or failed read leaves the struct indeterminate:
`undef`), read `contentBytes` payload bytes into a zero-initialised vector,
dispatch on the tag, then compute
`childrenEnd = tellg() + childrenBytes` and recursively read children while
`tellg() < childrenEnd`. -/
def readChunk : Nat → VoxStream → Model → Outcome (VoxStream × Model)
  | 0, _, _ => .outOfFuel
  | fuel + 1, s, m =>
    if s.fail ∨ s.data.length < s.pos + 12 then .undef
    else
      let hdr := byteSlice s.data s.pos 12
      let s1 : VoxStream := { s with pos := s.pos + 12 }
      let tag := hdr.take 4
      let contentBytes := u32LE hdr 4
      let childrenBytes := u32LE hdr 8
      let rv := s1.readVec contentBytes
      match chunkBranch tag rv.1 m with
      | none => .undef
      | some m1 =>
        let childrenEnd : Int := rv.2.tellg + (childrenBytes : Int)
        childLoop fuel rv.2 m1 childrenEnd

/-- The `while (file.tellg() < childrenEnd)` loop of `readChunk`
(vox2bella.cpp:415-418). -/
def childLoop : Nat → VoxStream → Model → Int → Outcome (VoxStream × Model)
  | 0, _, _, _ => .outOfFuel
  | fuel + 1, s, m, e =>
    if s.tellg < e then
      match readChunk fuel s m with
      | .ok (s', m') => childLoop fuel s' m' e
      | .undef => .undef
      | .outOfFuel => .outOfFuel
    else .ok (s, m)

end

/-- The top-level driving loop of `DL_main`
(vox2bella.cpp:660-662): `while (file.peek() != EOF) readChunk(...)`. -/
def chunkLoop : Nat → VoxStream → Model → Outcome (VoxStream × Model)
  | 0, _, _ => .outOfFuel
  | fuel + 1, s, m =>
    if s.peekEOF then .ok (s, m)
    else
      match readChunk fuel s m with
      | .ok (s', m') => chunkLoop fuel s' m'
      | .undef => .undef
      | .outOfFuel => .outOfFuel

/-- Result of the whole decode pass.  `invalidMagic` models `DL_main`
printing "Invalid file format." and returning 1 before any chunk is read and
before any output is written (vox2bella.cpp:563-566). -/
inductive DecodeResult where
  | ok : Model → DecodeResult
  | invalidMagic : DecodeResult
  | undef : DecodeResult
  | outOfFuel : DecodeResult
deriving DecidableEq

/-- Shallow embedding of the decode pass of `DL_main`
(vox2bella.cpp:558-662): read the 8-byte `VoxHeader` (a file shorter than 8
bytes leaves the struct indeterminate: `undef`), compare the magic with
`"VOX "`, then run the chunk loop on the rest of the file starting from the
global initial state.  The scene bookkeeping (camera, ground plane, material
node creation after the loop, file writing) does not touch the decoder state
modelled here. -/
def decodeFile (fuel : Nat) (data : List Nat) : DecodeResult :=
  if data.length < 8 then .undef
  else if byteSlice data 0 4 ≠ voxMagic then .invalidMagic
  else
    match chunkLoop fuel { data := data, pos := 8, fail := false } initModel with
    | .ok (_, m) => .ok m
    | .undef => .undef
    | .outOfFuel => .outOfFuel

/-- An abstract chunk tree: tag, content bytes and child chunks.  Serialising
such a tree produces exactly the on-disk layout that `readChunk` consumes. -/
inductive VChunk where
  | mk (tag : List Nat) (content : List Nat) (children : List VChunk)

/-- The tag of a chunk. -/
def VChunk.tag : VChunk → List Nat
  | .mk t _ _ => t

/-- The content (payload) bytes of a chunk. -/
def VChunk.content : VChunk → List Nat
  | .mk _ c _ => c

/-- The child chunks of a chunk. -/
def VChunk.children : VChunk → List VChunk
  | .mk _ _ ch => ch

mutual

/-- Serialised size of a chunk: 12 header bytes, the content, the children. -/
def sizeC : VChunk → Nat
  | .mk _ content children => 12 + content.length + sizeL children

/-- Serialised size of a list of sibling chunks. -/
def sizeL : List VChunk → Nat
  | [] => 0
  | c :: cs => sizeC c + sizeL cs

end

mutual

/-- Serialise one chunk: tag, content length, children length, content,
then the serialised children. -/
def serC : VChunk → List Nat
  | .mk tag content children =>
    tag ++ encodeU32 content.length ++ encodeU32 (sizeL children) ++
      content ++ serL children

/-- Serialise a list of sibling chunks. -/
def serL : List VChunk → List Nat
  | [] => []
  | c :: cs => serC c ++ serL cs

end

/-- Payload well-formedness per tag: exactly the condition under which the
corresponding branch of `readChunk` performs no out-of-bounds payload read. -/
def branchOK (tag content : List Nat) : Bool :=
  if tag = tagSIZE then decide (12 ≤ content.length)
  else if tag = tagXYZI then (decodeXYZIVoxels content).isSome
  else if tag = tagMATL then (decodeMATL content).isSome
  else true

mutual

/-- A chunk tree is good when its tag has four bytes, its content and
children sections fit in a `uint32`, its payload satisfies `branchOK` and
all children are good.  Serialising a good tree yields a valid input in the
sense of the specification. -/
def goodC : VChunk → Bool
  | .mk tag content children =>
    decide (tag.length = 4) && decide (content.length < 4294967296) &&
      decide (sizeL children < 4294967296) && branchOK tag content &&
      goodL children

/-- All chunks of a list are good. -/
def goodL : List VChunk → Bool
  | [] => true
  | c :: cs => goodC c && goodL cs

end

mutual

/-- The effect of decoding one chunk (and its children) on the decoder
state, expressed structurally on the chunk tree. -/
def effC : VChunk → Model → Model
  | .mk tag content children, m =>
    effL children ((chunkBranch tag content m).getD m)

/-- The effect of decoding a list of sibling chunks in order. -/
def effL : List VChunk → Model → Model
  | [], m => m
  | c :: cs, m => effL cs (effC c m)

end

mutual

/-- Fuel sufficient for `readChunk` on a serialised chunk (the fuel bounds
recursion depth, which each call decrements by one). -/
def needC : VChunk → Nat
  | .mk _ _ children => needL children + 1

/-- Fuel sufficient for `childLoop` on a serialised chunk list. -/
def needL : List VChunk → Nat
  | [] => 1
  | c :: cs => max (needC c) (needL cs) + 1

end

/-- Modelled from the spec: the Extent accumulator of §3/§4.5 is absent from
`src/vox2bella.cpp` (no bounding-box code exists there; the camera transform
is hard-coded).  Per the spec, it keeps a "has any voxel been seen yet" flag
plus running per-axis minima and maxima of all seen voxel coordinates. -/
structure ExtentAcc where
  seen : Bool
  minX : Nat
  minY : Nat
  minZ : Nat
  maxX : Nat
  maxY : Nat
  maxZ : Nat
deriving DecidableEq

/-- Modelled from the spec: the Extent update of append-voxel (§4.5): "on
the first call it seeds min=max=the new coordinate per axis; subsequent
calls tighten min/max componentwise". -/
def extentAppend (e : ExtentAcc) (x y z : Nat) : ExtentAcc :=
  if e.seen then
    { seen := true
      minX := min e.minX x, minY := min e.minY y, minZ := min e.minZ z
      maxX := max e.maxX x, maxY := max e.maxY y, maxZ := max e.maxZ z }
  else
    { seen := true, minX := x, minY := y, minZ := z, maxX := x, maxY := y, maxZ := z }

/-- Modelled from the spec: the Extent of a decode pass that appended the
given voxels in order, starting from the empty ("no voxel seen") state. -/
def extentOf (vs : List Voxel) : ExtentAcc :=
  vs.foldl (fun e v => extentAppend e v.x v.y v.z)
    { seen := false, minX := 0, minY := 0, minZ := 0, maxX := 0, maxY := 0, maxZ := 0 }

/-- Length-prefixed encoding of one `MATL` key/value pair: `uint32` key
length, key bytes, `uint32` value length, value bytes. -/
def encodePair (p : List Nat × List Nat) : List Nat :=
  encodeU32 p.1.length ++ p.1 ++ encodeU32 p.2.length ++ p.2

/-- Length-prefixed encoding of a `MATL` key/value dictionary. -/
def encodePairs : List (List Nat × List Nat) → List Nat
  | [] => []
  | p :: ps => encodePair p ++ encodePairs ps

/-- A small concrete chunk tree used as a witness input: an unrecognised
outer tag with a `SIZE` child and an `RGBA` child. -/
def exampleChunk : VChunk :=
  .mk [77, 65, 73, 78]
    []
    [.mk tagSIZE [3, 0, 0, 0, 4, 0, 0, 0, 5, 0, 0, 0] [],
     .mk [82, 71, 66, 65] [9, 9] []]

/-! ## Byte-level helper lemmas -/

theorem byteSlice_append (pre mid : List Nat) (n : Nat) :
    byteSlice (pre ++ mid) pre.length n = mid.take n := by
  unfold byteSlice
  rw [List.drop_left]

theorem u32LE_shift (pre x : List Nat) : u32LE (pre ++ x) pre.length = u32LE x 0 := by
  unfold u32LE
  rw [List.drop_left, List.drop_zero]

theorem u32LE_drop (l : List Nat) (a b : Nat) : u32LE l (a + b) = u32LE (l.drop a) b := by
  unfold u32LE
  rw [List.drop_drop]

theorem u32LE_encode_cons (a : Nat) (rest : List Nat) (h : a < 4294967296) :
    u32LE (encodeU32 a ++ rest) 0 = a := by
  have h1 : u32LE (encodeU32 a ++ rest) 0 =
      a % 256 + 256 * (a / 256 % 256) + 65536 * (a / 65536 % 256) +
        16777216 * (a / 16777216 % 256) := rfl
  omega

theorem u32LE_encode_at (pre : List Nat) (a : Nat) (rest : List Nat)
    (h : a < 4294967296) :
    u32LE (pre ++ (encodeU32 a ++ rest)) pre.length = a := by
  rw [u32LE_shift, u32LE_encode_cons a rest h]

theorem u32LE_take (x : List Nat) (k : Nat) (h : 4 ≤ k) :
    u32LE (x.take k) 0 = u32LE x 0 := by
  obtain ⟨k4, rfl⟩ : ∃ k4, k = k4 + 4 := ⟨k - 4, by omega⟩
  cases x with
  | nil => rfl
  | cons a x =>
    cases x with
    | nil => rfl
    | cons b x =>
      cases x with
      | nil => rfl
      | cons c x =>
        cases x with
        | nil => rfl
        | cons d x => rfl

theorem u32LE_byteSlice (l : List Nat) (p n off : Nat) (h : off + 4 ≤ n) :
    u32LE (byteSlice l p n) off = u32LE l (p + off) := by
  have h1 : u32LE (byteSlice l p n) off = u32LE ((byteSlice l p n).drop off) 0 := by
    have := u32LE_drop (byteSlice l p n) off 0
    simpa using this
  have h2 : (byteSlice l p n).drop off = (l.drop (p + off)).take (n - off) := by
    unfold byteSlice
    rw [List.drop_take, List.drop_drop]
  rw [h1, h2, u32LE_take _ _ (by omega)]
  have := u32LE_drop l (p + off) 0
  simpa using this

theorem take_append_left (l r : List Nat) (n : Nat) (h : n = l.length) :
    (l ++ r).take n = l := by
  subst h
  exact List.take_left l r

theorem drop_append_left (l r : List Nat) (n : Nat) (h : n = l.length) :
    (l ++ r).drop n = r := by
  subst h
  exact List.drop_left l r

theorem getD_mem (l : List Nat) (n d : Nat) (h : n < l.length) : l.getD n d ∈ l := by
  rw [List.getD_eq_getElem l d h]
  exact List.getElem_mem h

theorem byteSlice_take (l : List Nat) (p n k : Nat) (h : k ≤ n) :
    (byteSlice l p n).take k = byteSlice l p k := by
  unfold byteSlice
  rw [List.take_take, min_eq_left h]

theorem u32LE_append_add (l x : List Nat) (b : Nat) :
    u32LE (l ++ x) (l.length + b) = u32LE x b := by
  rw [u32LE_drop, List.drop_left]

theorem readChunk_layout (fuel : Nat) (pre tag body : List Nat) (cb chb : Nat) (m : Model)
    (htag : tag.length = 4) (hcb : cb < 4294967296) (hchb : chb < 4294967296)
    (hfit : cb ≤ body.length) :
    readChunk (fuel + 1)
      { data := pre ++ (tag ++ (encodeU32 cb ++ (encodeU32 chb ++ body))),
        pos := pre.length, fail := false } m =
      match chunkBranch tag (body.take cb) m with
      | none => .undef
      | some m1 =>
        childLoop fuel
          { data := pre ++ (tag ++ (encodeU32 cb ++ (encodeU32 chb ++ body))),
            pos := pre.length + 12 + cb, fail := false } m1
          (((pre.length + 12 + cb : Nat) : Int) + (chb : Int)) := by
  have hDlen : (pre ++ (tag ++ (encodeU32 cb ++ (encodeU32 chb ++ body)))).length
      = pre.length + 12 + body.length := by
    simp [encodeU32, htag]
    omega
  have htag' : (byteSlice (pre ++ (tag ++ (encodeU32 cb ++ (encodeU32 chb ++ body)))) pre.length 12).take 4 = tag := by
    rw [byteSlice_take _ _ _ _ (by omega), byteSlice_append, take_append_left _ _ _ htag.symm]
  have hcb' : u32LE (byteSlice (pre ++ (tag ++ (encodeU32 cb ++ (encodeU32 chb ++ body)))) pre.length 12) 4 = cb := by
    rw [u32LE_byteSlice _ _ _ _ (by omega)]
    have e1 : pre.length + 4 = (pre ++ tag).length + 0 := by simp [htag]
    rw [e1, show pre ++ (tag ++ (encodeU32 cb ++ (encodeU32 chb ++ body)))
        = (pre ++ tag) ++ (encodeU32 cb ++ (encodeU32 chb ++ body)) by simp [List.append_assoc],
      u32LE_append_add]
    simpa using u32LE_encode_cons cb _ hcb
  have hchb' : u32LE (byteSlice (pre ++ (tag ++ (encodeU32 cb ++ (encodeU32 chb ++ body)))) pre.length 12) 8 = chb := by
    rw [u32LE_byteSlice _ _ _ _ (by omega)]
    have e1 : pre.length + 8 = (pre ++ tag ++ encodeU32 cb).length + 0 := by simp [htag, encodeU32]
    rw [e1, show pre ++ (tag ++ (encodeU32 cb ++ (encodeU32 chb ++ body)))
        = (pre ++ tag ++ encodeU32 cb) ++ (encodeU32 chb ++ body) by simp [List.append_assoc],
      u32LE_append_add]
    simpa using u32LE_encode_cons chb _ hchb
  have hcont : byteSlice (pre ++ (tag ++ (encodeU32 cb ++ (encodeU32 chb ++ body)))) (pre.length + 12) cb
      = body.take cb := by
    have e1 : pre.length + 12 = (pre ++ tag ++ encodeU32 cb ++ encodeU32 chb).length := by
      simp [htag, encodeU32]
    rw [e1, show pre ++ (tag ++ (encodeU32 cb ++ (encodeU32 chb ++ body)))
        = (pre ++ tag ++ encodeU32 cb ++ encodeU32 chb) ++ body by simp [List.append_assoc],
      byteSlice_append]
  simp only [readChunk]
  rw [if_neg (by simp only [hDlen, Bool.false_eq_true, false_or, not_lt, not_or]; omega)]
  rw [htag', hcb', hchb']
  simp only [VoxStream.readVec]
  rw [if_neg (by simp)]
  rw [if_pos (by rw [hDlen]; omega)]
  rw [hcont]
  simp only [VoxStream.tellg]
  rfl

theorem readChunk_layout_short (fuel : Nat) (pre tag body : List Nat) (cb chb : Nat) (m : Model)
    (htag : tag.length = 4) (hcb : cb < 4294967296) (hchb : chb < 4294967296)
    (hshort : body.length < cb) :
    readChunk (fuel + 1)
      { data := pre ++ (tag ++ (encodeU32 cb ++ (encodeU32 chb ++ body))),
        pos := pre.length, fail := false } m =
      match chunkBranch tag (body ++ List.replicate (cb - body.length) 0) m with
      | none => .undef
      | some m1 =>
        childLoop fuel
          { data := pre ++ (tag ++ (encodeU32 cb ++ (encodeU32 chb ++ body))),
            pos := (pre ++ (tag ++ (encodeU32 cb ++ (encodeU32 chb ++ body)))).length,
            fail := true } m1 ((-1 : Int) + (chb : Int)) := by
  have hDlen : (pre ++ (tag ++ (encodeU32 cb ++ (encodeU32 chb ++ body)))).length
      = pre.length + 12 + body.length := by
    simp [encodeU32, htag]
    omega
  have htag' : (byteSlice (pre ++ (tag ++ (encodeU32 cb ++ (encodeU32 chb ++ body)))) pre.length 12).take 4 = tag := by
    rw [byteSlice_take _ _ _ _ (by omega), byteSlice_append, take_append_left _ _ _ htag.symm]
  have hcb' : u32LE (byteSlice (pre ++ (tag ++ (encodeU32 cb ++ (encodeU32 chb ++ body)))) pre.length 12) 4 = cb := by
    rw [u32LE_byteSlice _ _ _ _ (by omega)]
    have e1 : pre.length + 4 = (pre ++ tag).length + 0 := by simp [htag]
    rw [e1, show pre ++ (tag ++ (encodeU32 cb ++ (encodeU32 chb ++ body)))
        = (pre ++ tag) ++ (encodeU32 cb ++ (encodeU32 chb ++ body)) by simp [List.append_assoc],
      u32LE_append_add]
    simpa using u32LE_encode_cons cb _ hcb
  have hchb' : u32LE (byteSlice (pre ++ (tag ++ (encodeU32 cb ++ (encodeU32 chb ++ body)))) pre.length 12) 8 = chb := by
    rw [u32LE_byteSlice _ _ _ _ (by omega)]
    have e1 : pre.length + 8 = (pre ++ tag ++ encodeU32 cb).length + 0 := by simp [htag, encodeU32]
    rw [e1, show pre ++ (tag ++ (encodeU32 cb ++ (encodeU32 chb ++ body)))
        = (pre ++ tag ++ encodeU32 cb) ++ (encodeU32 chb ++ body) by simp [List.append_assoc],
      u32LE_append_add]
    simpa using u32LE_encode_cons chb _ hchb
  have hcont : byteSlice (pre ++ (tag ++ (encodeU32 cb ++ (encodeU32 chb ++ body)))) (pre.length + 12)
      ((pre ++ (tag ++ (encodeU32 cb ++ (encodeU32 chb ++ body)))).length - (pre.length + 12))
      = body := by
    rw [hDlen]
    have e2 : pre.length + 12 + body.length - (pre.length + 12) = body.length := by omega
    rw [e2]
    have e1 : pre.length + 12 = (pre ++ tag ++ encodeU32 cb ++ encodeU32 chb).length := by
      simp [htag, encodeU32]
    rw [e1, show pre ++ (tag ++ (encodeU32 cb ++ (encodeU32 chb ++ body)))
        = (pre ++ tag ++ encodeU32 cb ++ encodeU32 chb) ++ body by simp [List.append_assoc],
      byteSlice_append, List.take_length]
  simp only [readChunk]
  rw [if_neg (by simp only [hDlen, Bool.false_eq_true, false_or, not_lt, not_or]; omega)]
  rw [htag', hcb', hchb']
  simp only [VoxStream.readVec]
  rw [if_neg (by simp)]
  rw [if_neg (by rw [hDlen]; omega)]
  rw [hcont]
  simp only [VoxStream.tellg]
  have e3 : pre.length + 12 + body.length - (pre.length + 12) = body.length := by omega
  simp only [hDlen, e3, if_true]

theorem childLoop_exit (fuel : Nat) (s : VoxStream) (m : Model) (e : Int)
    (h : ¬ s.tellg < e) : childLoop (fuel + 1) s m e = .ok (s, m) := by
  simp only [childLoop, if_neg h]

theorem chunkLoop_eof (fuel : Nat) (s : VoxStream) (m : Model)
    (h : s.peekEOF = true) : chunkLoop (fuel + 1) s m = .ok (s, m) := by
  simp only [chunkLoop, h, if_true]

theorem chunkBranch_other (tag content : List Nat) (m : Model)
    (h1 : tag ≠ tagSIZE) (h2 : tag ≠ tagXYZI) (h3 : tag ≠ tagMATL) :
    chunkBranch tag content m = some m := by
  simp only [chunkBranch, if_neg h1, if_neg h2, if_neg h3]

theorem notMem_handledTags (tag : List Nat) (h : tag ∉ handledTags) :
    tag ≠ tagSIZE ∧ tag ≠ tagXYZI ∧ tag ≠ tagMATL := by
  refine ⟨?_, ?_, ?_⟩ <;> intro he <;> subst he <;> exact h (by simp [handledTags])

theorem goodC_iff (tag content : List Nat) (children : List VChunk) :
    goodC (.mk tag content children) = true ↔
      tag.length = 4 ∧ content.length < 4294967296 ∧ sizeL children < 4294967296 ∧
        branchOK tag content = true ∧ goodL children = true := by
  simp [goodC, Bool.and_eq_true, decide_eq_true_eq, and_assoc]

theorem goodL_cons_iff (c : VChunk) (cs : List VChunk) :
    goodL (c :: cs) = true ↔ goodC c = true ∧ goodL cs = true := by
  simp [goodL, Bool.and_eq_true]

mutual

theorem serC_length : ∀ c : VChunk, goodC c = true → (serC c).length = sizeC c
  | .mk tag content children, h => by
    have h' := (goodC_iff tag content children).1 h
    have hL := serL_length children h'.2.2.2.2
    simp [serC, sizeC, encodeU32, h'.1, hL]
    omega

theorem serL_length : ∀ cs : List VChunk, goodL cs = true → (serL cs).length = sizeL cs
  | [], _ => rfl
  | c :: cs, h => by
    have h' := (goodL_cons_iff c cs).1 h
    simp [serL, sizeL, serC_length c h'.1, serL_length cs h'.2]

end

theorem sizeC_ge (c : VChunk) : 12 ≤ sizeC c := by
  cases c
  simp only [sizeC]
  omega

theorem needC_pos (c : VChunk) : 1 ≤ needC c := by
  cases c
  simp [needC]

theorem needL_pos (cs : List VChunk) : 1 ≤ needL cs := by
  cases cs <;> simp [needL]

theorem chunkBranch_of_branchOK (tag content : List Nat) (m : Model)
    (h : branchOK tag content = true) :
    chunkBranch tag content m = some ((chunkBranch tag content m).getD m) := by
  unfold branchOK at h
  unfold chunkBranch
  split_ifs at h ⊢ with h1 h2 h3
  · exact absurd (by omega : ¬ 12 ≤ content.length) (by simpa using h)
  · rfl
  · obtain ⟨vs, hv⟩ := Option.isSome_iff_exists.1 h
    rw [hv]
    rfl
  · obtain ⟨mt, hmt⟩ := Option.isSome_iff_exists.1 h
    rw [hmt]
    rfl
  · rfl

theorem walker_sound : ∀ fuel : Nat,
    (∀ (c : VChunk) (pre suf : List Nat) (m : Model), goodC c = true → needC c ≤ fuel →
      readChunk fuel { data := pre ++ (serC c ++ suf), pos := pre.length, fail := false } m =
        .ok ({ data := pre ++ (serC c ++ suf), pos := pre.length + sizeC c, fail := false },
             effC c m))
    ∧ (∀ (cs : List VChunk) (pre suf : List Nat) (m : Model), goodL cs = true → needL cs ≤ fuel →
      childLoop fuel { data := pre ++ (serL cs ++ suf), pos := pre.length, fail := false } m
          ((pre.length : Int) + (sizeL cs : Int)) =
        .ok ({ data := pre ++ (serL cs ++ suf), pos := pre.length + sizeL cs, fail := false },
             effL cs m)) := by
  intro fuel
  induction fuel with
  | zero =>
    constructor
    · intro c _ _ _ _ hf
      exact absurd hf (by have := needC_pos c; omega)
    · intro cs _ _ _ _ hf
      exact absurd hf (by have := needL_pos cs; omega)
  | succ f ih =>
    constructor
    · -- readChunk on a serialised good chunk
      rintro ⟨tag, content, children⟩ pre suf m hg hf
      have h' := (goodC_iff tag content children).1 hg
      have hneed : needL children ≤ f := by
        have : needC (.mk tag content children) = needL children + 1 := rfl
        omega
      have hdata : pre ++ (serC (.mk tag content children) ++ suf)
          = pre ++ (tag ++ (encodeU32 content.length ++ (encodeU32 (sizeL children) ++
              (content ++ (serL children ++ suf))))) := by
        simp [serC, List.append_assoc]
      rw [hdata]
      rw [readChunk_layout f pre tag (content ++ (serL children ++ suf))
            content.length (sizeL children) m h'.1 h'.2.1 h'.2.2.1
            (by simp)]
      rw [take_append_left _ _ _ rfl]
      rw [chunkBranch_of_branchOK tag content m h'.2.2.2.1]
      have hpre' : (pre ++ tag ++ encodeU32 content.length ++ encodeU32 (sizeL children) ++ content).length
          = pre.length + 12 + content.length := by
        simp [encodeU32, h'.1]
        omega
      have hdata2 : pre ++ (tag ++ (encodeU32 content.length ++ (encodeU32 (sizeL children) ++
              (content ++ (serL children ++ suf)))))
          = (pre ++ tag ++ encodeU32 content.length ++ encodeU32 (sizeL children) ++ content)
              ++ (serL children ++ suf) := by
        simp [List.append_assoc]
      have hstep := (ih.2) children
        (pre ++ tag ++ encodeU32 content.length ++ encodeU32 (sizeL children) ++ content)
        suf ((chunkBranch tag content m).getD m) h'.2.2.2.2 hneed
      rw [hpre'] at hstep
      rw [← hdata2] at hstep
      simp only []
      rw [hstep]
      have hsz : pre.length + 12 + content.length + sizeL children
          = pre.length + sizeC (.mk tag content children) := by
        simp only [sizeC]
        omega
      rw [hsz]
      rfl
    · -- childLoop on a serialised good chunk list
      intro cs pre suf m hg hf
      cases cs with
      | nil =>
        have hexit : ¬ (VoxStream.mk (pre ++ (serL ([] : List VChunk) ++ suf)) pre.length false).tellg
            < ((pre.length : Int) + (sizeL ([] : List VChunk) : Int)) := by
          simp [VoxStream.tellg, sizeL]
        rw [childLoop_exit f _ m _ hexit]
        simp [sizeL, effL]
      | cons c cs =>
        have h' := (goodL_cons_iff c cs).1 hg
        have hneedc : needC c ≤ f := by
          have : needL (c :: cs) = max (needC c) (needL cs) + 1 := rfl
          omega
        have hneedcs : needL cs ≤ f := by
          have : needL (c :: cs) = max (needC c) (needL cs) + 1 := rfl
          omega
        have hserc := serC_length c h'.1
        have hdata : pre ++ (serL (c :: cs) ++ suf) = pre ++ (serC c ++ (serL cs ++ suf)) := by
          simp [serL, List.append_assoc]
        rw [hdata]
        simp only [childLoop]
        rw [if_pos (by
          simp only [VoxStream.tellg, if_neg (by simp : ¬ false = true)]
          have h12 := sizeC_ge c
          have : (0:Int) < ((sizeL (c :: cs) : Nat) : Int) := by
            simp only [sizeL]
            push_cast
            omega
          omega)]
        have hrc := ih.1 c pre (serL cs ++ suf) m h'.1 hneedc
        rw [hrc]
        simp only []
        have hdata2 : pre ++ (serC c ++ (serL cs ++ suf)) = (pre ++ serC c) ++ (serL cs ++ suf) := by
          simp [List.append_assoc]
        have hpre2 : (pre ++ serC c).length = pre.length + sizeC c := by
          simp [hserc]
        have hstep := ih.2 cs (pre ++ serC c) suf (effC c m) h'.2 hneedcs
        rw [hpre2, ← hdata2] at hstep
        have he : (pre.length : Int) + ((sizeL (c :: cs) : Nat) : Int)
            = ((pre.length + sizeC c : Nat) : Int) + ((sizeL cs : Nat) : Int) := by
          simp only [sizeL]
          push_cast
          omega
        rw [he, hstep]
        have hsz : pre.length + sizeC c + sizeL cs = pre.length + sizeL (c :: cs) := by
          simp only [sizeL]
          omega
        rw [hsz]
        rfl

theorem chunkBranch_preserves (tag content : List Nat) (m m1 : Model)
    (h : chunkBranch tag content m = some m1) :
    m1.palette = m.palette ∧ m1.has_palette = m.has_palette := by
  unfold chunkBranch at h
  split_ifs at h with h1 h4 h2 h3
  · cases Option.some.inj h
    exact ⟨rfl, rfl⟩
  · obtain ⟨w, hw, heq⟩ := Option.map_eq_some'.1 h
    subst heq
    exact ⟨rfl, rfl⟩
  · obtain ⟨w, hw, heq⟩ := Option.map_eq_some'.1 h
    subst heq
    exact ⟨rfl, rfl⟩
  · cases Option.some.inj h
    exact ⟨rfl, rfl⟩

theorem decode_preserves : ∀ fuel : Nat,
    (∀ s m s' m', readChunk fuel s m = .ok (s', m') →
      m'.palette = m.palette ∧ m'.has_palette = m.has_palette)
    ∧ (∀ s m e s' m', childLoop fuel s m e = .ok (s', m') →
      m'.palette = m.palette ∧ m'.has_palette = m.has_palette) := by
  intro fuel
  induction fuel with
  | zero =>
    constructor
    · intro s m s' m' h
      simp only [readChunk] at h
      cases h
    · intro s m e s' m' h
      simp only [childLoop] at h
      cases h
  | succ f ih =>
    constructor
    · intro s m s' m' h
      simp only [readChunk] at h
      split at h
      · cases h
      · split at h
        · cases h
        · rename_i m1 hb
          have h1 := chunkBranch_preserves _ _ _ _ hb
          have h2 := ih.2 _ _ _ _ _ h
          exact ⟨h2.1.trans h1.1, h2.2.trans h1.2⟩
    · intro s m e s' m' h
      simp only [childLoop] at h
      split at h
      · split at h
        · rename_i s1 m1 hr
          have h1 := ih.1 _ _ _ _ hr
          have h2 := ih.2 _ _ _ _ _ h
          exact ⟨h2.1.trans h1.1, h2.2.trans h1.2⟩
        · cases h
        · cases h
      · cases h
        exact ⟨rfl, rfl⟩

theorem chunkLoop_preserves : ∀ (fuel : Nat) (s : VoxStream) (m : Model) (s' : VoxStream) (m' : Model),
    chunkLoop fuel s m = .ok (s', m') →
    m'.palette = m.palette ∧ m'.has_palette = m.has_palette := by
  intro fuel
  induction fuel with
  | zero =>
    intro s m s' m' h
    simp only [chunkLoop] at h
    cases h
  | succ f ih =>
    intro s m s' m' h
    simp only [chunkLoop] at h
    split at h
    · cases h
      exact ⟨rfl, rfl⟩
    · split at h
      · rename_i s1 m1 hr
        have h1 := (decode_preserves f).1 _ _ _ _ hr
        have h2 := ih _ _ _ _ h
        exact ⟨h2.1.trans h1.1, h2.2.trans h1.2⟩
      · cases h
      · cases h

theorem matlLoop_encode : ∀ (ps : List (List Nat × List Nat)) (pre : List Nat)
    (acc : List (List Nat × List Nat)) (fuel : Nat),
    (∀ p ∈ ps, p.1.length < 4294967296 ∧ p.2.length < 4294967296) →
    ps.length + 1 ≤ fuel →
    matlLoop fuel (pre ++ encodePairs ps) pre.length acc =
      some (ps.foldl (fun a p => mapInsert a p.1 p.2) acc)
  | [], pre, acc, fuel, _, hf => by
    obtain ⟨f, rfl⟩ : ∃ f, fuel = f + 1 := ⟨fuel - 1, by omega⟩
    simp [matlLoop, encodePairs]
  | (k, v) :: ps, pre, acc, fuel, hwf, hf => by
    obtain ⟨f, rfl⟩ : ∃ f, fuel = f + 1 := ⟨fuel - 1, by omega⟩
    have hwk : k.length < 4294967296 := (hwf (k, v) (by simp)).1
    have hwv : v.length < 4294967296 := (hwf (k, v) (by simp)).2
    have hdata : pre ++ encodePairs ((k, v) :: ps)
        = pre ++ (encodeU32 k.length ++ (k ++ (encodeU32 v.length ++ (v ++ encodePairs ps)))) := by
      simp [encodePairs, encodePair, List.append_assoc]
    have hlen : (pre ++ encodePairs ((k, v) :: ps)).length
        = pre.length + 8 + k.length + v.length + (encodePairs ps).length := by
      rw [hdata]
      simp [encodeU32]
      omega
    have hk : u32LE (pre ++ encodePairs ((k, v) :: ps)) pre.length = k.length := by
      rw [hdata]
      exact u32LE_encode_at pre k.length _ hwk
    have hkey : byteSlice (pre ++ encodePairs ((k, v) :: ps)) (pre.length + 4) k.length = k := by
      rw [hdata]
      have e1 : pre.length + 4 = (pre ++ encodeU32 k.length).length := by simp [encodeU32]
      rw [e1, show pre ++ (encodeU32 k.length ++ (k ++ (encodeU32 v.length ++ (v ++ encodePairs ps))))
          = (pre ++ encodeU32 k.length) ++ (k ++ (encodeU32 v.length ++ (v ++ encodePairs ps)))
          by simp [List.append_assoc], byteSlice_append, take_append_left _ _ _ rfl]
    have hv : u32LE (pre ++ encodePairs ((k, v) :: ps)) (pre.length + 4 + k.length) = v.length := by
      rw [hdata]
      have e1 : pre.length + 4 + k.length = (pre ++ encodeU32 k.length ++ k).length := by
        simp [encodeU32]
        omega
      rw [e1, show pre ++ (encodeU32 k.length ++ (k ++ (encodeU32 v.length ++ (v ++ encodePairs ps))))
          = (pre ++ encodeU32 k.length ++ k) ++ (encodeU32 v.length ++ (v ++ encodePairs ps))
          by simp [List.append_assoc]]
      exact u32LE_encode_at _ v.length _ hwv
    have hval : byteSlice (pre ++ encodePairs ((k, v) :: ps)) (pre.length + 4 + k.length + 4) v.length = v := by
      rw [hdata]
      have e1 : pre.length + 4 + k.length + 4
          = (pre ++ encodeU32 k.length ++ k ++ encodeU32 v.length).length := by
        simp [encodeU32]
        omega
      rw [e1, show pre ++ (encodeU32 k.length ++ (k ++ (encodeU32 v.length ++ (v ++ encodePairs ps))))
          = (pre ++ encodeU32 k.length ++ k ++ encodeU32 v.length) ++ (v ++ encodePairs ps)
          by simp [List.append_assoc], byteSlice_append, take_append_left _ _ _ rfl]
    simp only [matlLoop]
    rw [if_pos (by omega)]
    rw [if_pos (by omega)]
    rw [hk]
    rw [if_pos (by omega)]
    rw [hkey]
    rw [hv]
    rw [if_pos (by omega)]
    rw [if_pos (by omega)]
    rw [hval]
    have hnext : pre.length + 4 + k.length + 4 + v.length = (pre ++ encodePair (k, v)).length := by
      simp [encodePair, encodeU32]
      omega
    have hdata2 : pre ++ encodePairs ((k, v) :: ps) = (pre ++ encodePair (k, v)) ++ encodePairs ps := by
      simp [encodePairs, List.append_assoc]
    rw [hnext, hdata2]
    rw [matlLoop_encode ps (pre ++ encodePair (k, v)) (mapInsert acc k v) f
      (fun p hp => hwf p (by simp [hp])) (by simpa using hf)]
    simp

theorem byteSlice_zero_take (data : List Nat) (n : Nat) : byteSlice data 0 n = data.take n := by
  unfold byteSlice
  rw [List.drop_zero]

theorem decodeFile_magic_ok (data : List Nat) (fuel : Nat) (h8 : 8 ≤ data.length)
    (hm : byteSlice data 0 4 = voxMagic) :
    decodeFile fuel data =
      match chunkLoop fuel { data := data, pos := 8, fail := false } initModel with
      | .ok (_, m) => .ok m
      | .undef => .undef
      | .outOfFuel => .outOfFuel := by
  unfold decodeFile
  rw [if_neg (by omega), if_neg (fun hx => hx hm)]

theorem byteSlice_magic (x : List Nat) : byteSlice (voxMagic ++ x) 0 4 = voxMagic := by
  rw [byteSlice_zero_take]
  exact take_append_left voxMagic x 4 rfl

/-- C6: for every input file of at least 8 bytes whose leading 4 bytes are not
the magic tag `"VOX "` (e.g. a file starting with "WRONG"), the decode pass of
`DL_main` fails with `InvalidMagic` (prints "Invalid file format." and returns
1) before any chunk is read and before any output is produced: the result is
`DecodeResult.invalidMagic`, produced by the header check alone. -/
theorem c6_invalid_magic (data : List Nat) (fuel : Nat)
    (hlen : 8 ≤ data.length) (hmagic : byteSlice data 0 4 ≠ voxMagic) :
    decodeFile fuel data = .invalidMagic := by
  unfold decodeFile
  rw [if_neg (by omega), if_pos hmagic]

/-- C6 witness: the bytes of "WRONGXYZ". -/
theorem c6_invalid_magic_witness :
    decodeFile 9 [87, 82, 79, 78, 71, 88, 89, 90] = .invalidMagic :=
  c6_invalid_magic [87, 82, 79, 78, 71, 88, 89, 90] 9 (by decide) (by decide)

/-- C9 (spec-modelled: the Extent accumulator is absent from
`src/vox2bella.cpp`; `extentAppend`/`extentOf` are modelled from spec
§3/§4.5): after zero voxels the Extent reports empty (`seen = false`); the
first append seeds per-axis min=max=the new coordinate; each subsequent
append tightens min/max componentwise; and after voxels at (1,2,3) and
(5,0,9) the Extent is min=(1,0,3), max=(5,2,9). -/
theorem c9_extent (e : ExtentAcc) (x y z : Nat) :
    (extentOf []).seen = false ∧
    (e.seen = false → extentAppend e x y z =
      { seen := true, minX := x, minY := y, minZ := z, maxX := x, maxY := y, maxZ := z }) ∧
    (e.seen = true → extentAppend e x y z =
      { seen := true
        minX := min e.minX x, minY := min e.minY y, minZ := min e.minZ z
        maxX := max e.maxX x, maxY := max e.maxY y, maxZ := max e.maxZ z }) ∧
    extentOf [⟨1, 2, 3, 0⟩, ⟨5, 0, 9, 0⟩] =
      { seen := true, minX := 1, minY := 0, minZ := 3, maxX := 5, maxY := 2, maxZ := 9 } := by
  refine ⟨rfl, ?_, ?_, by decide⟩
  · intro h
    simp [extentAppend, h]
  · intro h
    simp [extentAppend, h]

/-- C9 witness: first append seeds, second append tightens. -/
theorem c9_extent_witness :
    extentAppend { seen := false, minX := 9, minY := 9, minZ := 9, maxX := 9, maxY := 9, maxZ := 9 } 1 2 3 =
      { seen := true, minX := 1, minY := 2, minZ := 3, maxX := 1, maxY := 2, maxZ := 3 } ∧
    extentAppend { seen := true, minX := 1, minY := 2, minZ := 3, maxX := 1, maxY := 2, maxZ := 3 } 5 0 9 =
      { seen := true, minX := 1, minY := 0, minZ := 3, maxX := 5, maxY := 2, maxZ := 9 } :=
  ⟨(c9_extent ⟨false, 9, 9, 9, 9, 9, 9⟩ 1 2 3).2.1 rfl,
   (c9_extent ⟨true, 1, 2, 3, 1, 2, 3⟩ 5 0 9).2.2.1 rfl⟩

/-- C10: a file whose first 4 bytes are the magic `"VOX "` is accepted
whatever the following 32-bit version field holds: the decode never fails
with `InvalidMagic`, and for any version value the 8-byte file consisting of
just the header decodes successfully (the decoder proceeds to chunk parsing,
which finds the source exhausted).  `DL_main` never inspects
`header.version` (the print at vox2bella.cpp:573 is commented out). -/
theorem c10_version_ignored (ver : List Nat) (hver : ver.length = 4) :
    (∀ rest fuel, decodeFile fuel (voxMagic ++ (ver ++ rest)) ≠ .invalidMagic) ∧
    decodeFile 1 (voxMagic ++ ver) = .ok initModel := by
  constructor
  · intro rest fuel h
    rw [decodeFile_magic_ok _ fuel (by simp [voxMagic, hver]) (byteSlice_magic _)] at h
    cases hc : chunkLoop fuel { data := voxMagic ++ (ver ++ rest), pos := 8, fail := false } initModel with
    | ok p =>
      obtain ⟨s1, m1⟩ := p
      rw [hc] at h
      cases h
    | undef =>
      rw [hc] at h
      cases h
    | outOfFuel =>
      rw [hc] at h
      cases h
  · have hlen : (voxMagic ++ ver).length = 8 := by simp [voxMagic, hver]
    rw [decodeFile_magic_ok _ 1 (by omega) (byteSlice_magic _)]
    rw [show (1 : Nat) = 0 + 1 from rfl,
      chunkLoop_eof 0 _ initModel (by simp [VoxStream.peekEOF, hlen])]

/-- C10 witness: version 0xffffffff is accepted. -/
theorem c10_version_ignored_witness :
    decodeFile 1 (voxMagic ++ [255, 255, 255, 255]) = .ok initModel ∧
    decodeFile 7 (voxMagic ++ ([255, 255, 255, 255] ++ [0])) ≠ .invalidMagic :=
  ⟨(c10_version_ignored [255, 255, 255, 255] rfl).2,
   (c10_version_ignored [255, 255, 255, 255] rfl).1 [0] 7⟩

theorem encodePairs_length_ge : ∀ ps : List (List Nat × List Nat),
    ps.length ≤ (encodePairs ps).length
  | [] => le_rfl
  | p :: ps => by
    have := encodePairs_length_ge ps
    simp [encodePairs, encodePair, encodeU32]
    omega

theorem decodeMATL_encode (idb jb : List Nat) (ps : List (List Nat × List Nat))
    (hid : idb.length = 4) (hjb : jb.length = 4)
    (hwf : ∀ p ∈ ps, p.1.length < 4294967296 ∧ p.2.length < 4294967296) :
    decodeMATL (idb ++ jb ++ encodePairs ps) =
      some { materialId := toI32 (u32LE (idb ++ jb ++ encodePairs ps) 0)
             properties := ps.foldl (fun a p => mapInsert a p.1 p.2) [] } := by
  have hge := encodePairs_length_ge ps
  have hlen : (idb ++ jb ++ encodePairs ps).length = 8 + (encodePairs ps).length := by
    simp [hid, hjb]
    omega
  unfold decodeMATL
  rw [if_neg (by omega)]
  have e8 : (8 : Nat) = (idb ++ jb).length := by simp [hid, hjb]
  rw [e8]
  rw [matlLoop_encode ps (idb ++ jb) [] _ hwf (by omega)]
  rfl

/-- C5: decoding an `XYZI` payload whose leading little-endian `uint32` is
`numVoxels` (and which actually carries that many 4-byte records, the case in
which the C++ voxel loop performs no out-of-bounds access) yields exactly
`numVoxels` `Voxel` records, in payload order (record `i` is built from
payload bytes `4+4i .. 4+4i+3`), each with `x`, `y`, `z` and palette index in
0..255. -/
theorem c5_xyzi_decode (content : List Nat) (numVoxels : Nat)
    (hwf : ∀ b ∈ content, b < 256)
    (hcount : u32LE content 0 = numVoxels)
    (hlen : 4 + 4 * numVoxels ≤ content.length) :
    ∃ vs, decodeXYZIVoxels content = some vs ∧
      vs.length = numVoxels ∧
      (∀ i, i < numVoxels → vs.getD i ⟨0, 0, 0, 0⟩ =
        { x := content.getD (4 + i * 4) 0
          y := content.getD (4 + i * 4 + 1) 0
          z := content.getD (4 + i * 4 + 2) 0
          colorIndex := content.getD (4 + i * 4 + 3) 0 }) ∧
      (∀ v ∈ vs, v.x < 256 ∧ v.y < 256 ∧ v.z < 256 ∧ v.colorIndex < 256) := by
  unfold decodeXYZIVoxels
  rw [if_neg (by omega), hcount, if_neg (by omega)]
  refine ⟨_, rfl, by simp, ?_, ?_⟩
  · intro i hi
    rw [List.getD_eq_getElem _ _ (by simpa using hi)]
    simp
  · intro v hv
    simp only [List.mem_map, List.mem_range] at hv
    obtain ⟨i, hi, rfl⟩ := hv
    refine ⟨hwf _ (getD_mem _ _ _ (by omega)), hwf _ (getD_mem _ _ _ (by omega)),
      hwf _ (getD_mem _ _ _ (by omega)), hwf _ (getD_mem _ _ _ (by omega))⟩

/-- C5 witness: a payload with two voxel records. -/
theorem c5_xyzi_decode_witness :
    ∃ vs, decodeXYZIVoxels [2, 0, 0, 0, 1, 2, 3, 4, 5, 6, 7, 8] = some vs ∧
      vs.length = 2 ∧
      (∀ i, i < 2 → vs.getD i ⟨0, 0, 0, 0⟩ =
        { x := ([2, 0, 0, 0, 1, 2, 3, 4, 5, 6, 7, 8] : List Nat).getD (4 + i * 4) 0
          y := ([2, 0, 0, 0, 1, 2, 3, 4, 5, 6, 7, 8] : List Nat).getD (4 + i * 4 + 1) 0
          z := ([2, 0, 0, 0, 1, 2, 3, 4, 5, 6, 7, 8] : List Nat).getD (4 + i * 4 + 2) 0
          colorIndex := ([2, 0, 0, 0, 1, 2, 3, 4, 5, 6, 7, 8] : List Nat).getD (4 + i * 4 + 3) 0 }) ∧
      (∀ v ∈ vs, v.x < 256 ∧ v.y < 256 ∧ v.z < 256 ∧ v.colorIndex < 256) :=
  c5_xyzi_decode [2, 0, 0, 0, 1, 2, 3, 4, 5, 6, 7, 8] 2 (by decide) (by decide) (by decide)

/-- C7: the `MATL` decoder stores every decoded key/value pair in the
property dictionary with the value as the literal decoded byte string — the
decoded dictionary is exactly the `std::map` insertion fold of the pairs as
they appear in the payload, with no numeric coercion (the coercion code at
vox2bella.cpp:375-385 is commented out).  Stated over every payload built
from an id word, a skipped word and any length-prefixed pair list. -/
theorem c7_matl_literal_values (idb jb : List Nat) (ps : List (List Nat × List Nat))
    (hid : idb.length = 4) (hjb : jb.length = 4)
    (hwf : ∀ p ∈ ps, p.1.length < 4294967296 ∧ p.2.length < 4294967296) :
    ∃ mat, decodeMATL (idb ++ jb ++ encodePairs ps) = some mat ∧
      mat.properties = ps.foldl (fun a p => mapInsert a p.1 p.2) [] :=
  ⟨_, decodeMATL_encode idb jb ps hid hjb hwf, rfl⟩

/-- C7 witness: key "_rough" (bytes 95,114,111,117,103,104) with value "0.4"
(bytes 48,46,52) decodes to a dictionary mapping "_rough" to the literal
string "0.4". -/
theorem c7_matl_literal_values_witness :
    (∃ mat, decodeMATL ([0, 0, 0, 0] ++ [0, 0, 0, 0] ++
        encodePairs [([95, 114, 111, 117, 103, 104], [48, 46, 52])]) = some mat ∧
      mat.properties = [([95, 114, 111, 117, 103, 104], [48, 46, 52])].foldl
        (fun a p => mapInsert a p.1 p.2) []) ∧
    mapFind [([95, 114, 111, 117, 103, 104], [48, 46, 52])] [95, 114, 111, 117, 103, 104] =
      some [48, 46, 52] :=
  ⟨c7_matl_literal_values [0, 0, 0, 0] [0, 0, 0, 0]
      [([95, 114, 111, 117, 103, 104], [48, 46, 52])] rfl rfl (by decide),
   rfl⟩

/-- C8: a chunk with an unrecognised tag (one of the tags `readChunk` has no
branch for — which includes `RGBA`, whose branch is commented out), children
length 0 and content length `K` is skipped: the cursor advances exactly `K`
bytes past the 12-byte header (to `pos + 12 + K`) and the decoder state
(voxel sequence, `voxelPalette`, `palette`, `has_palette`) is returned
unchanged.  (The code keeps no per-chunk material or grid-size state: `MATL`
records are local and discarded, `SIZE` only prints.) -/
theorem c8_unrecognized_skip (pre tag content suf : List Nat) (m : Model) (fuel : Nat)
    (htag : tag.length = 4) (hnr : tag ∉ handledTags) (hK : content.length < 4294967296) :
    readChunk (fuel + 2)
      { data := pre ++ (tag ++ (encodeU32 content.length ++ (encodeU32 0 ++ (content ++ suf)))),
        pos := pre.length, fail := false } m =
      .ok ({ data := pre ++ (tag ++ (encodeU32 content.length ++ (encodeU32 0 ++ (content ++ suf)))),
             pos := pre.length + 12 + content.length, fail := false }, m) := by
  rw [show fuel + 2 = (fuel + 1) + 1 from rfl,
    readChunk_layout (fuel + 1) pre tag (content ++ suf) content.length 0 m htag hK
      (by omega) (by simp)]
  rw [take_append_left _ _ _ rfl]
  obtain ⟨hS, hX, hM⟩ := notMem_handledTags tag hnr
  rw [chunkBranch_other tag content m hS hX hM]
  simp only []
  rw [show fuel + 1 = fuel + 1 from rfl]
  rw [childLoop_exit fuel _ m _ (by simp [VoxStream.tellg])]

/-- C8 witness: an "ABCD" chunk with 3 content bytes is skipped. -/
theorem c8_unrecognized_skip_witness :
    readChunk 2
      { data := [] ++ ([65, 66, 67, 68] ++ (encodeU32 (List.length [1, 2, 3]) ++ (encodeU32 0 ++ ([1, 2, 3] ++ [])))),
        pos := List.length ([] : List Nat), fail := false } initModel =
      .ok ({ data := [] ++ ([65, 66, 67, 68] ++ (encodeU32 (List.length [1, 2, 3]) ++ (encodeU32 0 ++ ([1, 2, 3] ++ [])))),
             pos := List.length ([] : List Nat) + 12 + List.length [1, 2, 3], fail := false }, initModel) :=
  c8_unrecognized_skip [] [65, 66, 67, 68] [1, 2, 3] [] initModel 0 rfl (by decide) (by decide)

/-- C4: for every good chunk tree (`goodC`, the well-formedness that makes
its serialisation a valid input) serialised at absolute offset
`pre.length`, `readChunk` returns with the cursor exactly at
`childrenEnd = (pre.length + 12 + contentLength) + childrenLength` — the
post-payload cursor offset (the cursor offset once the chunk's header and
payload have been read, the offset from which vox2bella.cpp:411-413 computes
`childrenEnd`) plus the declared children length.  Since every read advances
the cursor monotonically and reads only the bytes between the old and the
new position, the walker never reads at or beyond `childrenEnd` while
processing the chunk's children, and the resulting model `effC c m` depends
only on the serialised tree, not on any byte at or past `childrenEnd`. -/
theorem c4_childrenEnd_bound (c : VChunk) (pre suf : List Nat) (m : Model) (fuel : Nat)
    (hg : goodC c = true) (hf : needC c ≤ fuel) :
    readChunk fuel { data := pre ++ (serC c ++ suf), pos := pre.length, fail := false } m =
      .ok ({ data := pre ++ (serC c ++ suf),
             pos := (pre.length + 12 + c.content.length) + sizeL c.children,
             fail := false },
           effC c m) := by
  have h := (walker_sound fuel).1 c pre suf m hg hf
  cases c with
  | mk tag content children =>
    have e : pre.length + sizeC (.mk tag content children)
        = (pre.length + 12 + (VChunk.mk tag content children).content.length)
            + sizeL (VChunk.mk tag content children).children := by
      simp only [sizeC, VChunk.content, VChunk.children]
      omega
    rw [h, e]

/-- C4 witness: a concrete three-chunk tree. -/
theorem c4_childrenEnd_bound_witness :
    readChunk 5
      { data := [] ++ (serC exampleChunk ++ []), pos := List.length ([] : List Nat), fail := false }
      initModel =
      .ok ({ data := [] ++ (serC exampleChunk ++ []),
             pos := (List.length ([] : List Nat) + 12 + exampleChunk.content.length)
               + sizeL exampleChunk.children,
             fail := false },
           effC exampleChunk initModel) :=
  c4_childrenEnd_bound exampleChunk [] [] initModel 5 (by decide) (by decide)

theorem chunkLoop_step (fuel : Nat) (s : VoxStream) (m : Model) (h : s.peekEOF = false) :
    chunkLoop (fuel + 1) s m =
      match readChunk fuel s m with
      | .ok (s', m') => chunkLoop fuel s' m'
      | .undef => .undef
      | .outOfFuel => .outOfFuel := by
  simp only [chunkLoop, h, Bool.false_eq_true, if_false]

/-- C1 counterexample: an input containing an RGBA chunk whose payload is
1024 bytes (all `7`); the C++ `RGBA` branch is commented out
(vox2bella.cpp:268-296), so the chunk is skipped: the decode succeeds with
`has_palette` still `false` (the claim says the flag is set) and the palette
still the compiled-in default — entry 1 is `0xffffffff`, not the value
`0x07070707` that entry 1 of the payload would decode to. -/
theorem c1_counterexample :
    decodeFile 3 (voxMagic ++ ([150, 0, 0, 0] ++ ([82, 71, 66, 65] ++
        (encodeU32 1024 ++ (encodeU32 0 ++ List.replicate 1024 7))))) = .ok initModel ∧
    initModel.has_palette = false ∧
    initModel.palette.getD 1 0 = 0xffffffff ∧
    u32LE (List.replicate 1024 7) 4 = 0x07070707 := by
  refine ⟨by rfl, rfl, rfl, by rfl⟩

/-- C1 (amended): palette-tagged (`RGBA`) chunks are never decoded — the
handling is commented out, so they are skipped like unrecognised tags.  For
every input whose decode pass completes, the model's explicit-palette flag is
`false` and the palette is the compiled-in 256-entry default, unmodified,
whether or not an RGBA chunk (of any payload length) is present; no
`MalformedChunk` error exists in the code. -/
theorem c1_rgba_ignored (fuel : Nat) (data : List Nat) (m : Model)
    (h : decodeFile fuel data = .ok m) :
    m.has_palette = false ∧ m.palette = defaultPalette := by
  unfold decodeFile at h
  split_ifs at h with h1 h2
  cases hc : chunkLoop fuel { data := data, pos := 8, fail := false } initModel with
  | ok p =>
    obtain ⟨s1, m1⟩ := p
    rw [hc] at h
    have hm : m1 = m := by simpa using h
    subst hm
    have hp := chunkLoop_preserves fuel _ initModel _ _ hc
    exact ⟨hp.2, hp.1⟩
  | undef =>
    rw [hc] at h
    simp at h
  | outOfFuel =>
    rw [hc] at h
    simp at h

/-- C1 witness: the amended claim applied to a minimal input. -/
theorem c1_rgba_ignored_witness :
    initModel.has_palette = false ∧ initModel.palette = defaultPalette :=
  c1_rgba_ignored 1 (voxMagic ++ [150, 0, 0, 0]) initModel (by rfl)

/-- C2 counterexample: a chunk declaring 20 content bytes when only 5 remain.
The claim says this fails with `UnexpectedEndOfData` and aborts; in the code
the short `file.read` into the zero-initialised vector just sets `failbit`,
`tellg()` returns -1, `childrenEnd` becomes -1, and the top-level
`peek() != EOF` loop exits silently: the decode completes with the model
unchanged (`.ok initModel`), no error of any kind. -/
theorem c2_counterexample :
    decodeFile 4 (voxMagic ++ ([150, 0, 0, 0] ++ ([65, 66, 67, 68] ++
        (encodeU32 20 ++ (encodeU32 0 ++ [1, 2, 3, 4, 5]))))) = .ok initModel := by
  rfl

/-- C2 (amended): a fixed-size read past the available bytes raises no error
— there is no `UnexpectedEndOfData` condition in the code.  A top-level
chunk (unrecognised tag, children length 0) whose declared content length
exceeds the remaining bytes is read short: the vector is zero-padded, the
stream enters the failed state, `childrenEnd` is computed from
`tellg() = -1`, and the driving loop then terminates silently with the model
accumulated so far.  (End-of-stream exactly after a top-level chunk is also
a silent loop exit; a truncated chunk *header* read leaves the header struct
indeterminate, which is undefined behaviour, not a reported error.) -/
theorem c2_truncated_silent (fuel : Nat) (pre tag body : List Nat) (cb : Nat) (m : Model)
    (htag : tag.length = 4) (hnr : tag ∉ handledTags)
    (hcb : cb < 4294967296) (hshort : body.length < cb) :
    chunkLoop (fuel + 3)
      { data := pre ++ (tag ++ (encodeU32 cb ++ (encodeU32 0 ++ body))),
        pos := pre.length, fail := false } m =
      .ok ({ data := pre ++ (tag ++ (encodeU32 cb ++ (encodeU32 0 ++ body))),
             pos := (pre ++ (tag ++ (encodeU32 cb ++ (encodeU32 0 ++ body)))).length,
             fail := true }, m) := by
  have hDlen : (pre ++ (tag ++ (encodeU32 cb ++ (encodeU32 0 ++ body)))).length
      = pre.length + 12 + body.length := by
    simp [encodeU32, htag]
    omega
  rw [show fuel + 3 = (fuel + 2) + 1 from rfl,
    chunkLoop_step (fuel + 2) _ m (by
      simp only [VoxStream.peekEOF, hDlen, Bool.false_or]
      simp only [decide_eq_false_iff_not, not_le]
      omega)]
  rw [show fuel + 2 = (fuel + 1) + 1 from rfl,
    readChunk_layout_short (fuel + 1) pre tag body cb 0 m htag hcb (by omega) hshort]
  obtain ⟨hS, hX, hM⟩ := notMem_handledTags tag hnr
  rw [chunkBranch_other tag _ m hS hX hM]
  simp only []
  rw [childLoop_exit fuel _ m _ (by simp [VoxStream.tellg])]
  simp only []
  rw [show fuel + 1 + 1 = fuel + 1 + 1 from rfl,
    chunkLoop_eof (fuel + 1) _ m (by simp [VoxStream.peekEOF])]

/-- C2 witness: the amended claim at a concrete truncated chunk. -/
theorem c2_truncated_silent_witness :
    chunkLoop 3
      { data := [] ++ ([65, 66, 67, 68] ++ (encodeU32 20 ++ (encodeU32 0 ++ [1, 2, 3]))),
        pos := List.length ([] : List Nat), fail := false } initModel =
      .ok ({ data := [] ++ ([65, 66, 67, 68] ++ (encodeU32 20 ++ (encodeU32 0 ++ [1, 2, 3]))),
             pos := ([] ++ ([65, 66, 67, 68] ++ (encodeU32 20 ++ (encodeU32 0 ++ [1, 2, 3])))).length,
             fail := true }, initModel) :=
  c2_truncated_silent 0 [] [65, 66, 67, 68] [1, 2, 3] 20 initModel rfl (by decide)
    (by decide) (by decide)

/-- C3 counterexample: a MATL chunk whose payload (10 bytes) ends right
after the skipped word plus two stray bytes, so the first declared key
length read overruns the payload.  The claim says this fails with
`MalformedChunk`; in the code the `reinterpret_cast` read goes past the
payload buffer — undefined behaviour, modelled as `.undef` — and no
`MalformedChunk` condition exists. -/
theorem c3_counterexample :
    decodeFile 3 (voxMagic ++ ([150, 0, 0, 0] ++ (tagMATL ++
        (encodeU32 10 ++ (encodeU32 0 ++ [1, 0, 0, 0, 0, 0, 0, 0, 9, 9]))))) = .undef := by
  rfl

/-- C3 (amended): the material decoder performs no bounds checks.  Whenever
the first key/value pair's declared key length or value length would overrun
the remaining payload (the single inequality below covers the key-length
read, the key bytes, the value-length read and the value bytes), the decoder
reads out of bounds — undefined behaviour, modelled by `none` — instead of
failing with a `MalformedChunk` error, which does not exist in the code. -/
theorem c3_matl_overrun (content : List Nat)
    (h8 : 8 < content.length)
    (hover : content.length <
      16 + u32LE content 8 + u32LE content (12 + u32LE content 8)) :
    decodeMATL content = none := by
  have hnone : matlLoop (content.length + 1) content 8 [] = none := by
    simp only [matlLoop]
    rw [if_pos h8]
    by_cases h12 : 8 + 4 ≤ content.length
    · rw [if_pos h12]
      have e : 8 + 4 + u32LE content 8 = 12 + u32LE content 8 := by omega
      rw [e]
      by_cases hkey : 12 + u32LE content 8 ≤ content.length
      · rw [if_pos hkey]
        by_cases hvl : 12 + u32LE content 8 + 4 ≤ content.length
        · rw [if_pos hvl]
          rw [if_neg (by omega)]
        · rw [if_neg hvl]
      · rw [if_neg hkey]
    · rw [if_neg h12]
  unfold decodeMATL
  rw [if_neg (by omega), hnone]
  rfl

/-- C3 witness: a 13-byte payload whose first declared key length is 4096. -/
theorem c3_matl_overrun_witness :
    decodeMATL ([0, 0, 0, 0, 0, 0, 0, 0] ++ (encodeU32 4096 ++ [1])) = none :=
  c3_matl_overrun ([0, 0, 0, 0, 0, 0, 0, 0] ++ (encodeU32 4096 ++ [1]))
    (by decide) (by decide)
